import Mathlib

/-!
Verification of the SafeBite image-analysis orchestration layer.

This file gives a shallow embedding of the two API utility modules
(`src/utils/gemini-api.ts` and `src/utils/llm.ts`) and proves properties of
the embedded definitions.  JavaScript strings are modelled by `String`,
JavaScript `undefined` by `Option.none`, thrown errors by `Except.error`,
and network effects by an explicit `Effects` counter threaded through the
model together with an oracle supplying the remote endpoint's responses.
-/

namespace SafeBite

/- ===================== JavaScript string primitives ===================== -/

/-- `String.prototype.split` with a one-character separator, on character
lists.  Mirrors JS: `"".split(c) = [""]`, adjacent separators yield empty
segments. -/
def charSplit (sep : Char) : List Char → List (List Char)
  | [] => [[]]
  | c :: rest =>
    let r := charSplit sep rest
    if c = sep then [] :: r
    else
      match r with
      | h :: t => (c :: h) :: t
      | [] => [[c]]

/-- `s.split(sep)` for a one-character separator. -/
def jsSplit (s : String) (sep : Char) : List String :=
  (charSplit sep s.toList).map (fun l => String.mk l)

/-- `s.startsWith(pre)`. -/
def jsStarts (s pre : String) : Bool :=
  pre.toList.isPrefixOf s.toList

/-- `s.slice(n)` for a nonnegative `n`. -/
def jsDrop (s : String) (n : Nat) : String :=
  String.mk (s.toList.drop n)

/-- ASCII whitespace recognised by `String.prototype.trim`. -/
def isJsWs (c : Char) : Bool :=
  c = ' ' || c = '\t' || c = '\n' || c = '\r' || c = '\x0b' || c = '\x0c'

/-- `s.trim()`. -/
def jsTrim (s : String) : String :=
  String.mk (((s.toList.dropWhile isJsWs).reverse.dropWhile isJsWs).reverse)

/-- JS `a || b` on strings: the empty string is falsy. -/
def jsOr (a b : String) : String :=
  if a = "" then b else a

/-- ASCII lowercase of one character.  `toLowerCase` is only ever applied to
file extensions here, so the ASCII range suffices. -/
def jsCharLower (c : Char) : Char :=
  if 'A' ≤ c ∧ c ≤ 'Z' then Char.ofNat (c.toNat + 32) else c

/-- `s.toLowerCase()`. -/
def jsLower (s : String) : String :=
  String.mk (s.toList.map jsCharLower)

/- ===================== JSON values ===================== -/

/-- JSON values as produced by `JSON.parse`.  Number literals are kept as
their source text (no numeric semantics of a parsed number is needed by any
claim).  Object fields keep their textual order; on duplicate keys the later
field wins, as in JS. -/
inductive Json where
  | null
  | bool (b : Bool)
  | num (lit : String)
  | str (s : String)
  | arr (elems : List Json)
  | obj (fields : List (String × Json))

instance : Inhabited Json := ⟨Json.null⟩

/-- `true` when the digits of a JSON number literal are all zero, i.e. the
literal denotes the (falsy) number 0. -/
def numLitIsZero (lit : String) : Bool :=
  let noSign := if jsStarts lit "-" then jsDrop lit 1 else lit
  let mant := ((jsSplit noSign 'e').headD "")
  let mant2 := ((jsSplit mant 'E').headD "")
  (mant2.toList.filter (fun c => c != '.')).all (fun c => c == '0')

/-- JS truthiness of a JSON value. -/
def jsTruthy : Json → Bool
  | Json.null => false
  | Json.bool b => b
  | Json.num lit => !(numLitIsZero lit)
  | Json.str s => s != ""
  | Json.arr _ => true
  | Json.obj _ => true

/-- JS truthiness of a possibly-undefined value (`undefined` is falsy). -/
def jsTruthyOpt : Option Json → Bool
  | none => false
  | some j => jsTruthy j

mutual

/-- JS `String(v)` coercion of a JSON value (template-literal interpolation).
Number literals are rendered as their source text, a harmless approximation
of JS number formatting never exercised by a theorem. -/
def jsToString : Json → String
  | Json.null => "null"
  | Json.bool b => if b then "true" else "false"
  | Json.num lit => lit
  | Json.str s => s
  | Json.arr xs => jsToStringItems xs
  | Json.obj _ => "[object Object]"

/-- `Array.prototype.toString`: items joined with commas, `null` rendered
empty. -/
def jsToStringItems : List Json → String
  | [] => ""
  | [Json.null] => ""
  | [x] => jsToString x
  | Json.null :: x :: xs => "," ++ jsToStringItems (x :: xs)
  | x :: y :: xs => jsToString x ++ "," ++ jsToStringItems (y :: xs)

end

/-- JS string coercion of a possibly-undefined value. -/
def jsToStringU : Option Json → String
  | none => "undefined"
  | some j => jsToString j

/-- Property access `o[key]` on a JSON value: a lookup on objects (later
duplicate keys win, matching `JSON.parse`), `undefined` otherwise. -/
def jsGetField (j : Json) (key : String) : Option Json :=
  match j with
  | Json.obj fields =>
    (fields.reverse.find? (fun kv => kv.1 == key)).map (fun kv => kv.2)
  | _ => none

/-- Index access `a[i]` on a JSON value: array indexing, `undefined`
otherwise. -/
def jsIndex (j : Json) (i : Nat) : Option Json :=
  match j with
  | Json.arr xs => xs.get? i
  | _ => none

/- ===================== JSON.parse ===================== -/

/-- JSON whitespace. -/
def isJsonWs (c : Char) : Bool :=
  c = ' ' || c = '\t' || c = '\n' || c = '\r'

def skipWs : List Char → List Char
  | [] => []
  | c :: cs => if isJsonWs c then skipWs cs else c :: cs

def hexVal (c : Char) : Option Nat :=
  if '0' ≤ c ∧ c ≤ '9' then some (c.toNat - '0'.toNat)
  else if 'a' ≤ c ∧ c ≤ 'f' then some (c.toNat - 'a'.toNat + 10)
  else if 'A' ≤ c ∧ c ≤ 'F' then some (c.toNat - 'A'.toNat + 10)
  else none

/-- Body of a JSON string literal, after the opening quote. -/
def parseStringRest (fuel : Nat) (cs : List Char) (acc : List Char) :
    Option (String × List Char) :=
  match fuel with
  | 0 => none
  | f + 1 =>
    match cs with
    | [] => none
    | c :: rest =>
      if c = '"' then some (String.mk acc.reverse, rest)
      else if c = '\\' then
        match rest with
        | [] => none
        | e :: rest2 =>
          if e = '"' then parseStringRest f rest2 ('"' :: acc)
          else if e = '\\' then parseStringRest f rest2 ('\\' :: acc)
          else if e = '/' then parseStringRest f rest2 ('/' :: acc)
          else if e = 'b' then parseStringRest f rest2 ('\x08' :: acc)
          else if e = 'f' then parseStringRest f rest2 ('\x0c' :: acc)
          else if e = 'n' then parseStringRest f rest2 ('\n' :: acc)
          else if e = 'r' then parseStringRest f rest2 ('\r' :: acc)
          else if e = 't' then parseStringRest f rest2 ('\t' :: acc)
          else if e = 'u' then
            match rest2 with
            | h1 :: h2 :: h3 :: h4 :: rest3 =>
              match hexVal h1, hexVal h2, hexVal h3, hexVal h4 with
              | some a, some b, some c2, some d =>
                parseStringRest f rest3
                  (Char.ofNat (((a * 16 + b) * 16 + c2) * 16 + d) :: acc)
              | _, _, _, _ => none
            | _ => none
          else none
      else if c.toNat < 0x20 then none
      else parseStringRest f rest (c :: acc)

def spanDigits : List Char → List Char × List Char
  | [] => ([], [])
  | c :: cs =>
    if c.isDigit then
      let (d, r) := spanDigits cs
      (c :: d, r)
    else ([], c :: cs)

/-- Integer part of a JSON number: `0` or a nonzero digit followed by
digits. -/
def parseIntPart : List Char → Option (List Char × List Char)
  | [] => none
  | c :: cs =>
    if c = '0' then some ([c], cs)
    else if c.isDigit then
      let (d, r) := spanDigits cs
      some (c :: d, r)
    else none

/-- Optional fraction part `.digits`. -/
def parseFracPart : List Char → Option (List Char × List Char)
  | '.' :: cs =>
    match spanDigits cs with
    | ([], _) => none
    | (d, r) => some ('.' :: d, r)
  | cs => some ([], cs)

/-- Optional exponent part `(e|E)(+|-)?digits`. -/
def parseExpPart : List Char → Option (List Char × List Char)
  | [] => some ([], [])
  | c :: cs =>
    if c = 'e' || c = 'E' then
      match cs with
      | s :: cs2 =>
        if s = '+' || s = '-' then
          match spanDigits cs2 with
          | ([], _) => none
          | (d, r) => some (c :: s :: d, r)
        else
          match spanDigits (s :: cs2) with
          | ([], _) => none
          | (d, r) => some (c :: d, r)
      | [] => none
    else some ([], c :: cs)

/-- JSON number literal; returns its source text. -/
def parseNumber (cs : List Char) : Option (String × List Char) :=
  let (sign, cs1) :=
    match cs with
    | '-' :: rest => (['-'], rest)
    | rest => (([] : List Char), rest)
  match parseIntPart cs1 with
  | none => none
  | some (ip, cs2) =>
    match parseFracPart cs2 with
    | none => none
    | some (fp, cs3) =>
      match parseExpPart cs3 with
      | none => none
      | some (ep, cs4) => some (String.mk (sign ++ ip ++ fp ++ ep), cs4)

/-- Expect the exact characters `lit`. -/
def parseLit (lit : List Char) (cs : List Char) : Option (List Char) :=
  match lit, cs with
  | [], rest => some rest
  | l :: ls, c :: rest => if c = l then parseLit ls rest else none
  | _ :: _, [] => none

mutual

/-- A JSON value (leading whitespace allowed), fuel-indexed. -/
def parseValue (fuel : Nat) (cs : List Char) : Option (Json × List Char) :=
  match fuel with
  | 0 => none
  | f + 1 =>
    match skipWs cs with
    | [] => none
    | c :: rest =>
      if c = '\x7b' then parseObjBody f (skipWs rest) []
      else if c = '[' then parseArrBody f (skipWs rest) []
      else if c = '"' then
        match parseStringRest (rest.length + 1) rest [] with
        | some (s, r) => some (Json.str s, r)
        | none => none
      else if c = 't' then
        match parseLit ['r', 'u', 'e'] rest with
        | some r => some (Json.bool true, r)
        | none => none
      else if c = 'f' then
        match parseLit ['a', 'l', 's', 'e'] rest with
        | some r => some (Json.bool false, r)
        | none => none
      else if c = 'n' then
        match parseLit ['u', 'l', 'l'] rest with
        | some r => some (Json.null, r)
        | none => none
      else
        match parseNumber (c :: rest) with
        | some (lit, r) => some (Json.num lit, r)
        | none => none

/-- Array elements after `[` (leading whitespace already skipped). -/
def parseArrBody (fuel : Nat) (cs : List Char) (acc : List Json) :
    Option (Json × List Char) :=
  match fuel with
  | 0 => none
  | f + 1 =>
    match cs with
    | ']' :: rest => if acc.isEmpty then some (Json.arr [], rest) else none
    | _ =>
      match parseValue f cs with
      | none => none
      | some (j, r) =>
        match skipWs r with
        | ',' :: r2 => parseArrBody f (skipWs r2) (acc ++ [j])
        | ']' :: r2 => some (Json.arr (acc ++ [j]), r2)
        | _ => none

/-- Object members after the opening brace (leading whitespace already
skipped). -/
def parseObjBody (fuel : Nat) (cs : List Char) (acc : List (String × Json)) :
    Option (Json × List Char) :=
  match fuel with
  | 0 => none
  | f + 1 =>
    match cs with
    | '\x7d' :: rest => if acc.isEmpty then some (Json.obj [], rest) else none
    | '"' :: rest =>
      match parseStringRest (rest.length + 1) rest [] with
      | none => none
      | some (k, r) =>
        match skipWs r with
        | ':' :: r2 =>
          match parseValue f r2 with
          | none => none
          | some (v, r3) =>
            match skipWs r3 with
            | ',' :: r4 => parseObjBody f (skipWs r4) (acc ++ [(k, v)])
            | '\x7d' :: r4 => some (Json.obj (acc ++ [(k, v)]), r4)
            | _ => none
        | _ => none
    | _ => none

end

/-- `JSON.parse`: strict parse of a whole string; `none` models the thrown
`SyntaxError`. -/
def jsonParse (s : String) : Option Json :=
  let cs := s.toList
  match parseValue (2 * cs.length + 2) cs with
  | some (j, rest) => if (skipWs rest).isEmpty then some j else none
  | none => none

/- ===================== Errors and effects ===================== -/

/-- The errors thrown by the two modules, by their `new Error(...)` sites. -/
inductive ApiError where
  /-- 'API key is required' (both modules, before any fetch). -/
  | missingCredential
  /-- 'Prompt must be a non-empty string' (`callGemini25Pro`). -/
  | invalidPrompt
  /-- 'Messages array must not be empty' (`callGemini25ProWithHistory`). -/
  | emptyMessages
  /-- 'max_tokens must be greater than thinking.budget_tokens'. -/
  | invalidTuning
  /-- A rejected `fetch` or a failed mid-stream `reader.read()`. -/
  | networkFailure
  /-- 'API request failed: <status> ...' on a non-2xx response, with the
  provider message when the error body parsed. -/
  | httpError (status : Nat) (providerMessage : Option String)
  /-- 'Response body is not readable'. -/
  | noReader
  /-- 'No content in API response'. -/
  | noContent
  /-- 'API 返回的不是有效的 JSON 格式' (the reply content failed
  `JSON.parse`). -/
  | invalidJson
  /-- '无法加载图片' (remote image fetch or blob read failed). -/
  | unreadableSource
deriving DecidableEq

/-- Network-side effects of one pipeline run: invocations of
`convertImageToBase64`, image fetches it issues, and POSTs made by the
non-streaming and streaming transports. -/
structure Effects where
  encodes : Nat
  fetches : Nat
  jsonCalls : Nat
  streamCalls : Nat

def Effects.init : Effects := ⟨0, 0, 0, 0⟩

/- ===================== Encoder ===================== -/

/-- The `{ base64, mimeType }` pair produced by `convertImageToBase64`.
`base64 = none` models the JS `undefined` that `url.split(',')[1]` yields on
a data URI without a comma. -/
structure EncodedImage where
  base64 : Option String
  mimeType : String

/-- What fetching a remote image URL yields: the FileReader's base64 payload
and the blob's MIME type (`""` when the blob carries none). -/
structure RemoteBlob where
  base64 : String
  blobType : String

/-- The extension-to-MIME table in `getMimeTypeFromUrl`. -/
def mimeTypesMap (ext : String) : Option String :=
  match ext with
  | "jpg" => some "image/jpeg"
  | "jpeg" => some "image/jpeg"
  | "png" => some "image/png"
  | "gif" => some "image/gif"
  | "webp" => some "image/webp"
  | "bmp" => some "image/bmp"
  | "svg" => some "image/svg+xml"
  | _ => none

/-- The regex match `url.match(/^data:([^;,]+)/)`: the maximal nonempty run
of non-`;`, non-`,` characters after `data:`. -/
def dataUriMimeMatch (url : String) : Option String :=
  let after := (jsDrop url 5).toList
  let m := after.takeWhile (fun c => c != ';' && c != ',')
  if m.isEmpty then none else some (String.mk m)

/-- `url.split('.').pop()?.toLowerCase().split('?')[0]`. -/
def urlExtension (url : String) : String :=
  let last := (jsSplit url '.').getLastD ""
  ((jsSplit (jsLower last) '?').headD "")

/-- `getMimeTypeFromUrl` (gemini-api.ts): data-URI prefix match first, then
the extension table, defaulting to `image/jpeg`. -/
def getMimeTypeFromUrl (url : String) : String :=
  match (if jsStarts url "data:" then dataUriMimeMatch url else none) with
  | some m => m
  | none => (mimeTypesMap (urlExtension url)).getD "image/jpeg"

/-- The template `` `data:${mimeType};base64,${base64}` `` used to rebuild a
data URI from an `EncodedImage`. -/
def mkDataUri (mimeType b64 : String) : String :=
  "data:" ++ mimeType ++ ";base64," ++ b64

/-- `convertImageToBase64` (gemini-api.ts).  A data URI is decoded in place
with no fetch; otherwise the URL is fetched (`remote` is the outcome) and
the blob's type, when empty, falls back to `getMimeTypeFromUrl`. -/
def convertImageToBase64 (remote : Option RemoteBlob) (url : String)
    (e : Effects) : Except ApiError EncodedImage × Effects :=
  let e := { e with encodes := e.encodes + 1 }
  if jsStarts url "data:" then
    (Except.ok ⟨(jsSplit url ',').get? 1, getMimeTypeFromUrl url⟩, e)
  else
    let e := { e with fetches := e.fetches + 1 }
    match remote with
    | none => (Except.error ApiError.unreadableSource, e)
    | some b =>
      (Except.ok ⟨some b.base64, jsOr b.blobType (getMimeTypeFromUrl url)⟩, e)

/-- `isValidImageFormat` (llm.ts). -/
def isValidImageFormat (base64OrUrl : String) : Bool :=
  let supportedFormats :=
    ["image/jpeg", "image/jpg", "image/png", "image/gif", "image/webp"]
  if jsStarts base64OrUrl "data:" then
    supportedFormats.any (fun format => jsStarts base64OrUrl ("data:" ++ format))
  else if jsStarts base64OrUrl "http://" || jsStarts base64OrUrl "https://" then
    let ext := jsLower ((jsSplit base64OrUrl '.').getLastD "")
    ["jpg", "jpeg", "png", "gif", "webp"].contains ext
  else false

/- ===================== Non-streaming transport ===================== -/

/-- Outcome of the POST issued by the non-streaming transport. -/
inductive HttpOutcome where
  /-- `fetch` rejected. -/
  | netFail
  /-- Non-2xx status, with the provider's error message when its body
  parsed. -/
  | badStatus (status : Nat) (providerMessage : Option String)
  /-- 2xx with the given parsed JSON body. -/
  | ok (body : Json)

/-- The optional chain `data.choices?.[0]?.message?.content`. -/
def jsonReplyContent (body : Json) : Option Json :=
  (((jsGetField body "choices").bind (fun c => jsIndex c 0)).bind
    (fun c0 => jsGetField c0 "message")).bind
    (fun m => jsGetField m "content")

/-- Reply handling of `callGeminiAPIForJSON` after the POST: non-2xx and
network failures throw; a falsy `content` throws 'No content in API
response'; otherwise the content string is `JSON.parse`d, throwing on
failure.  (A non-string truthy content would be coerced by `JSON.parse` via
`jsToString`; no modelled reply takes that path.) -/
def validateJsonReply : HttpOutcome → Except ApiError Json
  | HttpOutcome.netFail => Except.error ApiError.networkFailure
  | HttpOutcome.badStatus s m => Except.error (ApiError.httpError s m)
  | HttpOutcome.ok body =>
    let content := jsonReplyContent body
    if jsTruthyOpt content then
      match content with
      | some (Json.str s) =>
        match jsonParse s with
        | some j => Except.ok j
        | none => Except.error ApiError.invalidJson
      | some other =>
        match jsonParse (jsToString other) with
        | some j => Except.ok j
        | none => Except.error ApiError.invalidJson
      | none => Except.error ApiError.noContent
    else Except.error ApiError.noContent

/-- `callGeminiAPIForJSON` (gemini-api.ts).  The effective key is
`options.apiKey || import.meta.env.VITE_GEMINI_API_KEY`; an empty effective
key throws before the POST.  Model/temperature/max_tokens/response_format
only shape the request body and are not observable here. -/
def callGeminiAPIForJSON (optApiKey envApiKey : String)
    (outcome : HttpOutcome) (e : Effects) : Except ApiError Json × Effects :=
  let apiKey := jsOr optApiKey envApiKey
  if apiKey = "" then (Except.error ApiError.missingCredential, e)
  else (validateJsonReply outcome, { e with jsonCalls := e.jsonCalls + 1 })

/- ===================== Streaming transport ===================== -/

/-- Callback firings of a streaming call, in order: `onChunk` with the
delta content, `onComplete`, `onError`. -/
inductive Ev where
  | chunk (content : Json)
  | complete
  | errored

/-- `parsed.choices?.[0]?.delta?.content`. -/
def sseContent (parsed : Json) : Option Json :=
  (((jsGetField parsed "choices").bind (fun c => jsIndex c 0)).bind
    (fun c0 => jsGetField c0 "delta")).bind
    (fun d => jsGetField d "content")

/-- `parsed.choices?.[0]?.finish_reason`. -/
def sseFinishReason (parsed : Json) : Option Json :=
  ((jsGetField parsed "choices").bind (fun c => jsIndex c 0)).bind
    (fun c0 => jsGetField c0 "finish_reason")

/-- Handling of the payload after `data: `: the `[DONE]` sentinel completes
and returns from the whole call; otherwise the payload is `JSON.parse`d (a
failure is only logged and skipped), a truthy delta content fires `onChunk`
and a truthy finish reason fires `onComplete` without stopping the loop.
Returns the fired callbacks and whether the call returned. -/
def handleSSEData (data : String) : List Ev × Bool :=
  if data = "[DONE]" then ([Ev.complete], true)
  else
    match jsonParse data with
    | none => ([], false)
    | some parsed =>
      ((if jsTruthyOpt (sseContent parsed) then
          [Ev.chunk ((sseContent parsed).getD Json.null)]
        else []) ++
       (if jsTruthyOpt (sseFinishReason parsed) then [Ev.complete] else []),
       false)

/-- One line of the SSE body: trimmed; empty lines and `:` comments are
skipped; only `data: ` lines are handled. -/
def processLine (line : String) : List Ev × Bool :=
  if jsTrim line = "" then ([], false)
  else if jsStarts (jsTrim line) ":" then ([], false)
  else if jsStarts (jsTrim line) "data: " then handleSSEData (jsDrop (jsTrim line) 6)
  else ([], false)

/-- The inner `for (const line of lines)` loop; a `[DONE]` return abandons
the remaining lines. -/
def processLines : List String → List Ev × Bool
  | [] => ([], false)
  | l :: ls =>
    if (processLine l).2 then ((processLine l).1, true)
    else ((processLine l).1 ++ (processLines ls).1, (processLines ls).2)

/-- The `while (true)` read loop over decoded byte chunks: each chunk is
appended to the carry buffer, complete lines are processed, and the last
(possibly incomplete) line is carried over.  A `[DONE]` return abandons the
remaining chunks; a buffer remnant at end of stream is never processed. -/
def processChunks (buffer : String) : List String → List Ev × Bool
  | [] => ([], false)
  | c :: cs =>
    if (processLines ((jsSplit (buffer ++ c) '\n').dropLast)).2 then
      ((processLines ((jsSplit (buffer ++ c) '\n').dropLast)).1, true)
    else
      ((processLines ((jsSplit (buffer ++ c) '\n').dropLast)).1 ++
         (processChunks ((jsSplit (buffer ++ c) '\n').getLastD "") cs).1,
       (processChunks ((jsSplit (buffer ++ c) '\n').getLastD "") cs).2)

/-- Outcome of the POST issued by a streaming transport call. -/
inductive StreamOutcome where
  /-- `fetch` rejected. -/
  | netFail
  /-- Non-2xx status. -/
  | badStatus (status : Nat) (providerMessage : Option String)
  /-- 2xx but `response.body` is not readable. -/
  | noBody
  /-- A readable stream delivering the given decoded chunks;
  `closeOk = true` means the reader then reports `done`, `false` models a
  mid-stream read failure. -/
  | ok (chunks : List String) (closeOk : Bool)

/-- Shared body of the three streaming functions (`callGeminiAPIForStream`,
`callGemini25Pro`, `callGemini25ProWithHistory`), whose fetch/read/parse
loops are textually identical: failures inside the `try` fire `onError`
once and rethrow; a `[DONE]` return or a closed stream fires `onComplete`. -/
def streamLoop : StreamOutcome → Except ApiError Unit × List Ev
  | StreamOutcome.netFail => (Except.error ApiError.networkFailure, [Ev.errored])
  | StreamOutcome.badStatus s m => (Except.error (ApiError.httpError s m), [Ev.errored])
  | StreamOutcome.noBody => (Except.error ApiError.noReader, [Ev.errored])
  | StreamOutcome.ok chunks closeOk =>
    if (processChunks "" chunks).2 then (Except.ok (), (processChunks "" chunks).1)
    else if closeOk then (Except.ok (), (processChunks "" chunks).1 ++ [Ev.complete])
    else (Except.error ApiError.networkFailure, (processChunks "" chunks).1 ++ [Ev.errored])

/-- `callGeminiAPIForStream` (gemini-api.ts).  Same env-fallback credential
check as the JSON transport, before the `try` block — so a missing key
throws without firing `onError` and without any network attempt. -/
def callGeminiAPIForStream (optApiKey envApiKey : String)
    (outcome : StreamOutcome) (e : Effects) :
    (Except ApiError Unit × List Ev) × Effects :=
  let apiKey := jsOr optApiKey envApiKey
  if apiKey = "" then ((Except.error ApiError.missingCredential, []), e)
  else (streamLoop outcome, { e with streamCalls := e.streamCalls + 1 })

/- ===================== llm.ts transport entry points ===================== -/

/-- `ThinkingConfig` (llm.ts): reasoning mode plus optional token budget. -/
structure ThinkingConfig where
  reasoningType : String
  budget_tokens : Option Nat
  include_thoughts : Option Bool

/-- The fields of `CallGeminiOptions` that the fail-fast checks read.
`maxTokens = none` models an omitted field (default 8192); the remaining
options only shape the request body. -/
structure CallGeminiOptions where
  apiKey : String
  maxTokens : Option Nat
  thinking : Option ThinkingConfig

/-- The guard `thinking?.budget_tokens && thinking.budget_tokens >=
maxTokens`: a missing or zero budget is falsy and skips the check. -/
def thinkingBudgetViolation (thinking : Option ThinkingConfig)
    (maxTokens : Nat) : Bool :=
  match thinking with
  | none => false
  | some t =>
    match t.budget_tokens with
    | none => false
    | some b => b != 0 && decide (maxTokens ≤ b)

/-- A chat message part (llm.ts). -/
inductive ContentPart where
  | text (text : String)
  | imageUrl (url : String) (detail : Option String)

/-- A chat message: `content` is a plain string or a part list. -/
inductive MessageContent where
  | plain (text : String)
  | parts (parts : List ContentPart)

structure Message where
  role : String
  content : MessageContent

/-- `callGemini25Pro` (llm.ts): validates the key, the prompt and the
thinking budget — in that order, all before the fetch — then runs the same
stream loop.  There is no env fallback for the key here. -/
def callGemini25Pro (options : CallGeminiOptions) (prompt : String)
    (outcome : StreamOutcome) (e : Effects) :
    (Except ApiError Unit × List Ev) × Effects :=
  let maxTokens := options.maxTokens.getD 8192
  if options.apiKey = "" then ((Except.error ApiError.missingCredential, []), e)
  else if prompt = "" then ((Except.error ApiError.invalidPrompt, []), e)
  else if thinkingBudgetViolation options.thinking maxTokens then
    ((Except.error ApiError.invalidTuning, []), e)
  else (streamLoop outcome, { e with streamCalls := e.streamCalls + 1 })

/-- `callGemini25ProWithHistory` (llm.ts): like `callGemini25Pro` but takes
the message history and rejects an empty history instead of an empty
prompt. -/
def callGemini25ProWithHistory (messages : List Message)
    (options : CallGeminiOptions) (outcome : StreamOutcome) (e : Effects) :
    (Except ApiError Unit × List Ev) × Effects :=
  let maxTokens := options.maxTokens.getD 8192
  if options.apiKey = "" then ((Except.error ApiError.missingCredential, []), e)
  else if messages.isEmpty then ((Except.error ApiError.emptyMessages, []), e)
  else if thinkingBudgetViolation options.thinking maxTokens then
    ((Except.error ApiError.invalidTuning, []), e)
  else (streamLoop outcome, { e with streamCalls := e.streamCalls + 1 })

/- ===================== Stream observations ===================== -/

/-- How many times `onComplete` fired. -/
def countComplete (evs : List Ev) : Nat :=
  (evs.filter fun ev => match ev with | Ev.complete => true | _ => false).length

/-- How many times `onError` fired. -/
def countErrored (evs : List Ev) : Nat :=
  (evs.filter fun ev => match ev with | Ev.errored => true | _ => false).length

/-- The text accumulated by an `onChunk` callback doing `text += chunk`. -/
def accumEvText (evs : List Ev) : String :=
  evs.foldl
    (fun acc ev => match ev with | Ev.chunk c => acc ++ jsToString c | _ => acc)
    ""

/- ===================== Orchestrator ===================== -/

/-- The terminal `SmartAnalysisResult`.  `result` is the analysis payload or
JS `null`; `errorMessage` is absent except in the unknown branch. -/
structure SmartAnalysisResult where
  imageType : Json
  confidence : Option Json
  result : Json
  errorMessage : Option String

/-- The remote endpoint's behaviour during one `smartAnalyzeImage` run: the
image fetch outcome (for a non-data-URI source) and one HTTP outcome per
possible transport call.  Each POST carries a distinct request, so each has
its own outcome. -/
structure OrchOracle where
  remote : Option RemoteBlob
  classifyOutcome : HttpOutcome
  extractOutcome : StreamOutcome
  ingredientsOutcome : HttpOutcome
  menuOutcome : HttpOutcome
  foodOutcome : HttpOutcome

/-- `analyzeIngredientsAllergens` (gemini-api.ts): builds a text-only prompt
from the extracted ingredients text and the allergen list (joined with 、)
and makes one non-streaming call. -/
def analyzeIngredientsAllergens (ingredientsText : String)
    (userAllergens : List String) (optApiKey envApiKey : String)
    (oracle : OrchOracle) (e : Effects) : Except ApiError Json × Effects :=
  let _allergensText := String.intercalate "、" userAllergens
  let _prompt := ingredientsText
  callGeminiAPIForJSON optApiKey envApiKey oracle.ingredientsOutcome e

/-- `analyzeMenuRecommendations` (gemini-api.ts): text-only prompt from the
extracted menu text, one non-streaming call. -/
def analyzeMenuRecommendations (menuText : String)
    (userAllergens : List String) (optApiKey envApiKey : String)
    (oracle : OrchOracle) (e : Effects) : Except ApiError Json × Effects :=
  let _allergensText := String.intercalate "、" userAllergens
  let _prompt := menuText
  callGeminiAPIForJSON optApiKey envApiKey oracle.menuOutcome e

/-- `analyzeFoodPhoto` (gemini-api.ts): converts `imageUrl` itself to base64
(a fresh `convertImageToBase64` run — this function has no access to any
earlier encoding) and makes one non-streaming call with the image part. -/
def analyzeFoodPhoto (imageUrl : String) (userAllergens : List String)
    (optApiKey envApiKey : String) (oracle : OrchOracle) (e : Effects) :
    Except ApiError Json × Effects :=
  let _allergensText := String.intercalate "、" userAllergens
  match convertImageToBase64 oracle.remote imageUrl e with
  | (Except.error er, e) => (Except.error er, e)
  | (Except.ok enc, e) =>
    let _imagePart := mkDataUri enc.mimeType (enc.base64.getD "")
    callGeminiAPIForJSON optApiKey envApiKey oracle.foodOutcome e

/-- `smartAnalyzeImage` (gemini-api.ts): encode once, classify with one
non-streaming call, then branch on `typeResult.imageType`:
`ingredients`/`menu` run one streaming text extraction over the encoded
image followed by one non-streaming analysis; `food` delegates to
`analyzeFoodPhoto` on the original `imageUrl`; `unknown` and anything else
return a terminal result with a null payload and no further call.  Any
thrown error is logged and rethrown unchanged. -/
def smartAnalyzeImage (imageUrl : String) (userAllergens : List String)
    (optApiKey envApiKey : String) (oracle : OrchOracle) (e : Effects) :
    Except ApiError SmartAnalysisResult × Effects :=
  match convertImageToBase64 oracle.remote imageUrl e with
  | (Except.error er, e) => (Except.error er, e)
  | (Except.ok enc, e) =>
    let _classifyImagePart := mkDataUri enc.mimeType (enc.base64.getD "")
    match callGeminiAPIForJSON optApiKey envApiKey oracle.classifyOutcome e with
    | (Except.error er, e) => (Except.error er, e)
    | (Except.ok typeResult, e) =>
      match jsGetField typeResult "imageType" with
      | some (Json.str "ingredients") =>
        match callGeminiAPIForStream optApiKey envApiKey oracle.extractOutcome e with
        | ((Except.error er, _), e) => (Except.error er, e)
        | ((Except.ok _, evs), e) =>
          let ingredientsText := accumEvText evs
          match analyzeIngredientsAllergens ingredientsText userAllergens
              optApiKey envApiKey oracle e with
          | (Except.error er, e) => (Except.error er, e)
          | (Except.ok analysisResult, e) =>
            (Except.ok
              { imageType := Json.str "ingredients",
                confidence := jsGetField typeResult "confidence",
                result := analysisResult,
                errorMessage := none }, e)
      | some (Json.str "menu") =>
        match callGeminiAPIForStream optApiKey envApiKey oracle.extractOutcome e with
        | ((Except.error er, _), e) => (Except.error er, e)
        | ((Except.ok _, evs), e) =>
          let menuText := accumEvText evs
          match analyzeMenuRecommendations menuText userAllergens
              optApiKey envApiKey oracle e with
          | (Except.error er, e) => (Except.error er, e)
          | (Except.ok analysisResult, e) =>
            (Except.ok
              { imageType := Json.str "menu",
                confidence := jsGetField typeResult "confidence",
                result := analysisResult,
                errorMessage := none }, e)
      | some (Json.str "food") =>
        match analyzeFoodPhoto imageUrl userAllergens optApiKey envApiKey
            oracle e with
        | (Except.error er, e) => (Except.error er, e)
        | (Except.ok analysisResult, e) =>
          (Except.ok
            { imageType := Json.str "food",
              confidence := jsGetField typeResult "confidence",
              result := analysisResult,
              errorMessage := none }, e)
      | _ =>
        (Except.ok
          { imageType := Json.str "unknown",
            confidence := jsGetField typeResult "confidence",
            result := Json.null,
            errorMessage :=
              some ("无法识别图片类型。" ++
                jsToStringU (jsGetField typeResult "reason")) }, e)

/- ===================== Concrete fixtures ===================== -/

/-- The parsed body of a 2xx non-streaming reply whose
`choices[0].message.content` is the given string. -/
def sampleBody (content : String) : Json :=
  Json.obj [("choices", Json.arr
    [Json.obj [("message", Json.obj [("content", Json.str content)])]])]

/-- A 2xx non-streaming reply whose `choices[0].message.content` is the
given string. -/
def replyWith (content : String) : HttpOutcome :=
  HttpOutcome.ok (sampleBody content)

/-- A classifier reply reporting the given image type with confidence 0.95
and reason `r1`. -/
def classifierReply (imageType : String) : HttpOutcome :=
  replyWith ("\x7b\"imageType\":\"" ++ imageType ++
    "\",\"confidence\":0.95,\"reason\":\"r1\"\x7d")

/-- The parsed classifier output of `classifierReply`. -/
def classifierJson (imageType : String) : Json :=
  Json.obj [("imageType", Json.str imageType),
    ("confidence", Json.num "0.95"), ("reason", Json.str "r1")]

/-- An endpoint oracle for whole-pipeline runs: the image fetch succeeds,
the classifier answers with the given type, extraction streams one content
frame then `[DONE]`, and each analysis stage returns a small valid JSON
object. -/
def sampleOracle (imageType : String) : OrchOracle :=
  { remote := some ⟨"QUJD", "image/jpeg"⟩
    classifyOutcome := classifierReply imageType
    extractOutcome := StreamOutcome.ok
      ["data: \x7b\"choices\":[\x7b\"delta\":\x7b\"content\":\"配料\"\x7d\x7d]\x7d\ndata: [DONE]\n"] true
    ingredientsOutcome := replyWith "\x7b\"riskLevel\":\"safe\"\x7d"
    menuOutcome := replyWith "\x7b\"recommendations\":[]\x7d"
    foodOutcome := replyWith "\x7b\"overallRisk\":\"safe\"\x7d" }

/-- The four frames of spec testable-property 5, one chunk per frame. -/
def spec5Frames : List String :=
  ["data: \x7b\"choices\":[\x7b\"delta\":\x7b\"content\":\"foo\"\x7d\x7d]\x7d\n",
   "data: garbage\n",
   "data: \x7b\"choices\":[\x7b\"delta\":\x7b\"content\":\"bar\"\x7d\x7d]\x7d\n",
   "data: [DONE]\n"]

/-- A stream carrying a frame with a `finish_reason` followed by the
`[DONE]` sentinel — the shape a completion stream normally ends with. -/
def finishThenDone : List String :=
  ["data: \x7b\"choices\":[\x7b\"delta\":\x7b\x7d,\"finish_reason\":\"stop\"\x7d]\x7d\ndata: [DONE]\n"]

/- ===================== General lemmas ===================== -/

theorem countErrored_append (a b : List Ev) :
    countErrored (a ++ b) = countErrored a + countErrored b := by
  simp [countErrored, List.filter_append]

theorem countComplete_append (a b : List Ev) :
    countComplete (a ++ b) = countComplete a + countComplete b := by
  simp [countComplete, List.filter_append]

theorem handleSSEData_no_err (d : String) :
    countErrored (handleSSEData d).1 = 0 := by
  unfold handleSSEData
  split
  · rfl
  · split
    · rfl
    · rw [countErrored_append]
      split <;> split <;> rfl

theorem handleSSEData_stop (d : String)
    (h : (handleSSEData d).2 = true) : (handleSSEData d).1 = [Ev.complete] := by
  unfold handleSSEData at h ⊢
  split at h
  · rename_i hd
    simp [hd]
  · rename_i hd
    split at h
    · simp at h
    · simp at h

theorem processLine_no_err (l : String) :
    countErrored (processLine l).1 = 0 := by
  unfold processLine
  split
  · rfl
  · split
    · rfl
    · split
      · exact handleSSEData_no_err _
      · rfl

theorem processLine_stop (l : String)
    (h : (processLine l).2 = true) : (processLine l).1 = [Ev.complete] := by
  by_cases h1 : jsTrim l = ""
  · simp [processLine, h1] at h
  · by_cases h2 : jsStarts (jsTrim l) ":" = true
    · simp [processLine, h1, h2] at h
    · by_cases h3 : jsStarts (jsTrim l) "data: " = true
      · simp only [processLine, h1, h2, h3, if_false, if_true] at h ⊢
        exact handleSSEData_stop _ h
      · simp [processLine, h1, h2, h3] at h

theorem processLines_no_err (ls : List String) :
    countErrored (processLines ls).1 = 0 := by
  induction ls with
  | nil => rfl
  | cons l ls ih =>
    unfold processLines
    split
    · exact processLine_no_err _
    · rw [countErrored_append, processLine_no_err, ih]

theorem processLines_stop (ls : List String)
    (h : (processLines ls).2 = true) : 1 ≤ countComplete (processLines ls).1 := by
  induction ls with
  | nil => simp [processLines] at h
  | cons l ls ih =>
    by_cases hstop : (processLine l).2 = true
    · unfold processLines
      rw [if_pos hstop, processLine_stop l hstop]
      decide
    · unfold processLines at h ⊢
      rw [if_neg hstop] at h ⊢
      rw [countComplete_append]
      have := ih h
      omega

theorem processChunks_no_err (cs : List String) (buffer : String) :
    countErrored (processChunks buffer cs).1 = 0 := by
  induction cs generalizing buffer with
  | nil => rfl
  | cons c cs ih =>
    unfold processChunks
    split
    · exact processLines_no_err _
    · rw [countErrored_append, processLines_no_err, ih]

theorem processChunks_stop (cs : List String) (buffer : String)
    (h : (processChunks buffer cs).2 = true) :
    1 ≤ countComplete (processChunks buffer cs).1 := by
  induction cs generalizing buffer with
  | nil => simp [processChunks] at h
  | cons c cs ih =>
    by_cases hstop : (processLines ((jsSplit (buffer ++ c) '\n').dropLast)).2 = true
    · unfold processChunks
      rw [if_pos hstop]
      exact processLines_stop _ hstop
    · unfold processChunks at h ⊢
      rw [if_neg hstop] at h ⊢
      rw [countComplete_append]
      have := ih _ h
      omega

theorem convert_dataUri (u : String) (h : jsStarts u "data:" = true)
    (r : Option RemoteBlob) (e : Effects) :
    convertImageToBase64 r u e =
      (Except.ok ⟨(jsSplit u ',').get? 1, getMimeTypeFromUrl u⟩,
       { e with encodes := e.encodes + 1 }) := by
  unfold convertImageToBase64
  simp [h]

theorem convert_remote (u : String) (h : jsStarts u "data:" = false)
    (b : RemoteBlob) (e : Effects) :
    convertImageToBase64 (some b) u e =
      (Except.ok ⟨some b.base64, jsOr b.blobType (getMimeTypeFromUrl u)⟩,
       { e with encodes := e.encodes + 1, fetches := e.fetches + 1 }) := by
  unfold convertImageToBase64
  simp [h]

theorem callJson_withKey (opt env : String) (h : jsOr opt env ≠ "")
    (outcome : HttpOutcome) (e : Effects) :
    callGeminiAPIForJSON opt env outcome e =
      (validateJsonReply outcome, { e with jsonCalls := e.jsonCalls + 1 }) := by
  unfold callGeminiAPIForJSON
  simp [h]

theorem callStream_withKey (opt env : String) (h : jsOr opt env ≠ "")
    (outcome : StreamOutcome) (e : Effects) :
    callGeminiAPIForStream opt env outcome e =
      (streamLoop outcome, { e with streamCalls := e.streamCalls + 1 }) := by
  unfold callGeminiAPIForStream
  simp [h]

theorem toList_append (a b : String) :
    (a ++ b).toList = a.toList ++ b.toList := by
  simp [String.toList, String.data_append]

theorem toList_eq_nil {s : String} (h : s.toList = []) : s = "" := by
  cases s with
  | mk d =>
    simp only [String.toList] at h
    subst h
    rfl

theorem isPrefixOf_append_self (l t : List Char) :
    l.isPrefixOf (l ++ t) = true := by
  rw [List.isPrefixOf_iff_prefix]
  exact List.prefix_append l t

theorem charSplit_sepFree (sep : Char) (l : List Char) (h : sep ∉ l) :
    charSplit sep l = [l] := by
  induction l with
  | nil => rfl
  | cons c cs ih =>
    have hc : c ≠ sep := fun hcs => h (hcs ▸ List.mem_cons_self c cs)
    have hcs : sep ∉ cs := fun hmem => h (List.mem_cons_of_mem _ hmem)
    rw [charSplit, ih hcs]
    simp [hc]

theorem charSplit_first (sep : Char) (A B : List Char) (hA : sep ∉ A) :
    charSplit sep (A ++ sep :: B) = A :: charSplit sep B := by
  induction A with
  | nil =>
    show charSplit sep (sep :: B) = [] :: charSplit sep B
    rw [charSplit]
    simp
  | cons c cs ih =>
    have hc : c ≠ sep := fun hcs => hA (hcs ▸ List.mem_cons_self c cs)
    have hcs : sep ∉ cs := fun hmem => hA (List.mem_cons_of_mem _ hmem)
    show charSplit sep (c :: (cs ++ sep :: B)) = (c :: cs) :: charSplit sep B
    rw [charSplit, ih hcs]
    simp [hc]

theorem takeWhile_append_all (p : Char → Bool) (a b : List Char)
    (h : ∀ c ∈ a, p c = true) :
    (a ++ b).takeWhile p = a ++ b.takeWhile p := by
  induction a with
  | nil => rfl
  | cons c cs ih =>
    have hc : p c = true := h c (List.mem_cons_self c cs)
    have hcs : ∀ x ∈ cs, p x = true := fun x hx => h x (List.mem_cons_of_mem _ hx)
    simp [List.takeWhile_cons, hc, ih hcs]

/-- The fully right-associated character decomposition of a rebuilt data
URI. -/
theorem mkDataUri_toList (m p : String) :
    (mkDataUri m p).toList =
      "data:".toList ++ (m.toList ++ (";base64".toList ++ (',' :: p.toList))) := by
  unfold mkDataUri
  rw [toList_append, toList_append, toList_append]
  have h64 : (";base64,").toList = (";base64").toList ++ [','] := rfl
  rw [h64]
  simp [List.append_assoc]

/-- Decoding a well-formed data URI `data:<mime>;base64,<payload>`:
`convertImageToBase64` returns exactly the payload and the media type, with
one encoder invocation and no fetch.  The hypotheses say the URI is
well-formed: a nonempty media type free of `;`/`,`, and a payload free of
`,` (true of base64 text). -/
theorem encode_data_uri (m p : String) (hm0 : m ≠ "")
    (hm : ∀ c ∈ m.toList, c ≠ ';' ∧ c ≠ ',') (hp : ',' ∉ p.toList)
    (remote : Option RemoteBlob) (e : Effects) :
    convertImageToBase64 remote (mkDataUri m p) e =
      (Except.ok ⟨some p, m⟩, { e with encodes := e.encodes + 1 }) := by
  have hshape := mkDataUri_toList m p
  have hstart : jsStarts (mkDataUri m p) "data:" = true := by
    unfold jsStarts
    rw [hshape]
    exact isPrefixOf_append_self _ _
  have hA : ',' ∉ ("data:".toList ++ m.toList ++ ";base64".toList) := by
    intro hc
    rcases List.mem_append.1 hc with hc1 | hc2
    · rcases List.mem_append.1 hc1 with hc3 | hc4
      · simp at hc3
      · exact (hm ',' hc4).2 rfl
    · simp at hc2
  have hshape2 : (mkDataUri m p).toList =
      ("data:".toList ++ m.toList ++ ";base64".toList) ++ ',' :: p.toList := by
    rw [hshape]
    simp [List.append_assoc]
  have hsplit : jsSplit (mkDataUri m p) ',' =
      [String.mk ("data:".toList ++ m.toList ++ ";base64".toList), p] := by
    unfold jsSplit
    rw [hshape2, charSplit_first _ _ _ hA, charSplit_sepFree _ _ hp]
    rfl
  have hmime : getMimeTypeFromUrl (mkDataUri m p) = m := by
    have hmatch : dataUriMimeMatch (mkDataUri m p) = some m := by
      unfold dataUriMimeMatch jsDrop
      have hdrop : ((mkDataUri m p).toList.drop 5) =
          m.toList ++ (";base64".toList ++ (',' :: p.toList)) := by
        rw [hshape]
        have hlen : ("data:".toList).length = 5 := rfl
        rw [← hlen, List.drop_left]
      have htake :
          ((mkDataUri m p).toList.drop 5).takeWhile
              (fun c => c != ';' && c != ',') = m.toList := by
        rw [hdrop, takeWhile_append_all]
        · have hsemi :
              List.takeWhile (fun c => c != ';' && c != ',')
                ((";base64").toList ++ ',' :: p.toList) = [] := by
            rw [show (";base64").toList = ';' :: ("base64").toList from rfl]
            simp [List.takeWhile_cons]
          rw [hsemi, List.append_nil]
        · intro c hc
          rcases hm c hc with ⟨h1, h2⟩
          simp [h1, h2]
      have hmd : m.data ≠ [] := fun hnil => hm0 (toList_eq_nil hnil)
      have hne : (m.data).isEmpty = false := by
        cases hd : m.data
        · exact absurd hd hmd
        · rfl
      simp only [String.toList] at htake ⊢
      rw [htake]
      simp [hne]
    unfold getMimeTypeFromUrl
    rw [if_pos hstart, hmatch]
  rw [convert_dataUri _ hstart remote e, hsplit, hmime]
  rfl

/- ===================== Claims ===================== -/

/-- C4: on a stream made of the frames `data: {"choices":[{"delta":
{"content":"foo"}}]}`, `data: garbage`, `data: {"choices":[{"delta":
{"content":"bar"}}]}`, `data: [DONE]`, the text accumulated by `onChunk` is
exactly `"foobar"`, `onComplete` fires exactly once, the unparseable frame
is skipped without firing `onError`, and the call succeeds. -/
theorem C4_bad_frame_skipped :
    accumEvText (callGeminiAPIForStream "key" ""
        (StreamOutcome.ok spec5Frames true) Effects.init).1.2 = "foobar" ∧
    countComplete (callGeminiAPIForStream "key" ""
        (StreamOutcome.ok spec5Frames true) Effects.init).1.2 = 1 ∧
    countErrored (callGeminiAPIForStream "key" ""
        (StreamOutcome.ok spec5Frames true) Effects.init).1.2 = 0 ∧
    (callGeminiAPIForStream "key" ""
        (StreamOutcome.ok spec5Frames true) Effects.init).1.1 = Except.ok () :=
  ⟨rfl, rfl, rfl, rfl⟩

/-- C9: encoding a well-formed data URI `data:<mime>;base64,<payload>`
returns exactly the payload and media type, touching only the encoder
counter (no fetch); and re-encoding the data URI reassembled from that
output yields the identical payload and media type (idempotence). -/
theorem C9_data_uri_lossless_idempotent (m p : String) (hm0 : m ≠ "")
    (hm : ∀ c ∈ m.toList, c ≠ ';' ∧ c ≠ ',') (hp : ',' ∉ p.toList)
    (remote remote2 : Option RemoteBlob) (e e2 : Effects) :
    convertImageToBase64 remote (mkDataUri m p) e =
      (Except.ok ⟨some p, m⟩, { e with encodes := e.encodes + 1 }) ∧
    convertImageToBase64 remote2
        (mkDataUri (EncodedImage.mk (some p) m).mimeType
          ((EncodedImage.mk (some p) m).base64.getD "")) e2 =
      (Except.ok ⟨some p, m⟩, { e2 with encodes := e2.encodes + 1 }) :=
  ⟨encode_data_uri m p hm0 hm hp remote e,
   encode_data_uri m p hm0 hm hp remote2 e2⟩

/-- C9 witness: the data URI `data:image/png;base64,QUJD` decodes to
payload `QUJD` and media type `image/png` with no fetch. -/
theorem C9_witness :
    convertImageToBase64 none (mkDataUri "image/png" "QUJD") Effects.init =
      (Except.ok ⟨some "QUJD", "image/png"⟩, ⟨1, 0, 0, 0⟩) :=
  (C9_data_uri_lossless_idempotent "image/png" "QUJD" (by decide) (by decide)
    (by decide) none none Effects.init Effects.init).1

/-- C5 counterexample: the encoder accepts `data:text/plain;base64,QUJD` —
a source whose media type is outside {jpeg, jpg, png, gif, webp} — and
produces an EncodedImage instead of failing with UnsupportedFormat; it also
silently maps an unrecognized extension to `image/jpeg`.  (The llm.ts
checker itself would reject the same source.) -/
theorem C5_counterexample :
    convertImageToBase64 none "data:text/plain;base64,QUJD" Effects.init =
      (Except.ok ⟨some "QUJD", "text/plain"⟩, ⟨1, 0, 0, 0⟩) ∧
    isValidImageFormat "data:text/plain;base64,QUJD" = false ∧
    getMimeTypeFromUrl "https://example.com/photo.xyz" = "image/jpeg" :=
  ⟨rfl, rfl, rfl⟩

/-- C5 amended: `convertImageToBase64` never fails with UnsupportedFormat —
any well-formed data URI is accepted whatever its media type, and the
extension table even admits bmp and svg; the {jpeg, jpg, png, gif, webp}
allow-list exists only in llm.ts's `isValidImageFormat`. -/
theorem C5_amended :
    (∀ (m p : String), m ≠ "" → (∀ c ∈ m.toList, c ≠ ';' ∧ c ≠ ',') →
      ',' ∉ p.toList → ∀ (remote : Option RemoteBlob) (e : Effects),
      (convertImageToBase64 remote (mkDataUri m p) e).1 =
        Except.ok ⟨some p, m⟩) ∧
    mimeTypesMap "bmp" = some "image/bmp" ∧
    mimeTypesMap "svg" = some "image/svg+xml" ∧
    (∀ u, jsStarts u "data:" = true →
      (isValidImageFormat u = true ↔
        ∃ fmt ∈ ["image/jpeg", "image/jpg", "image/png", "image/gif",
          "image/webp"], jsStarts u ("data:" ++ fmt) = true)) := by
  refine ⟨?_, rfl, rfl, ?_⟩
  · intro m p hm0 hm hp remote e
    rw [encode_data_uri m p hm0 hm hp remote e]
  · intro u hu
    unfold isValidImageFormat
    rw [if_pos hu]
    simp [List.any_eq_true]

/-- C5 amended witness: `data:text/plain;base64,QUJD` encodes successfully
though `text/plain` is outside the allowed set. -/
theorem C5_amended_witness :
    (convertImageToBase64 none (mkDataUri "text/plain" "QUJD")
        Effects.init).1 = Except.ok ⟨some "QUJD", "text/plain"⟩ :=
  C5_amended.1 "text/plain" "QUJD" (by decide) (by decide) (by decide)
    none Effects.init

/-- C6 counterexample: a reply whose `choices[0].message.content` is the
empty string — present but not parseable as JSON — fails with 'No content
in API response' (the absent-content error), not with the invalid-JSON
error the claim assigns to unparseable content. -/
theorem C6_counterexample :
    validateJsonReply (replyWith "") = Except.error ApiError.noContent ∧
    jsonReplyContent (sampleBody "") = some (Json.str "") ∧
    jsonParse "" = none ∧
    ApiError.noContent ≠ ApiError.invalidJson :=
  ⟨rfl, rfl, rfl, by decide⟩

/-- C6 amended: absent OR empty (falsy) content fails with 'No content in
API response'; present nonempty content that fails `JSON.parse` fails with
the invalid-JSON error; otherwise the validator returns exactly
`JSON.parse(content)` with no deeper schema validation. -/
theorem C6_amended (body : Json) :
    (jsonReplyContent body = none →
      validateJsonReply (HttpOutcome.ok body) = Except.error ApiError.noContent) ∧
    (jsonReplyContent body = some (Json.str "") →
      validateJsonReply (HttpOutcome.ok body) = Except.error ApiError.noContent) ∧
    (∀ s, jsonReplyContent body = some (Json.str s) → s ≠ "" →
      validateJsonReply (HttpOutcome.ok body) =
        (match jsonParse s with
         | some j => Except.ok j
         | none => Except.error ApiError.invalidJson)) := by
  refine ⟨?_, ?_, ?_⟩
  · intro h
    simp only [validateJsonReply]
    rw [h]
    rfl
  · intro h
    simp only [validateJsonReply]
    rw [h]
    rfl
  · intro s h hs
    simp only [validateJsonReply]
    rw [h]
    have htru : jsTruthyOpt (some (Json.str s)) = true := by
      simp [jsTruthyOpt, jsTruthy, hs]
    rw [if_pos htru]

/-- C6 amended witness: content `"{}"` parses and is returned verbatim. -/
theorem C6_amended_witness :
    validateJsonReply (HttpOutcome.ok (sampleBody "\x7b\x7d")) =
      (match jsonParse "\x7b\x7d" with
       | some j => Except.ok j
       | none => Except.error ApiError.invalidJson) :=
  (C6_amended (sampleBody "\x7b\x7d")).2.2 "\x7b\x7d" rfl (by decide)

/-- C7 counterexample: a non-streaming call with an empty `options.apiKey`
but a nonempty `VITE_GEMINI_API_KEY` environment value does not fail with
the missing-credential error — it issues the POST (one network call). -/
theorem C7_counterexample :
    callGeminiAPIForJSON "" "env-key" (replyWith "\x7b\x7d") Effects.init =
      (Except.ok (Json.obj []), ⟨0, 0, 1, 0⟩) :=
  rfl

/-- C7 amended: the gemini-api transports fail with the missing-credential
error before any network attempt exactly when the effective key
`options.apiKey || env` is empty; the llm.ts transports, which have no env
fallback, fail whenever `options.apiKey` is empty — in every case with zero
network calls and no callback fired. -/
theorem C7_amended :
    (∀ (opt env : String) (outcome : HttpOutcome) (e : Effects),
      jsOr opt env = "" →
      callGeminiAPIForJSON opt env outcome e =
        (Except.error ApiError.missingCredential, e)) ∧
    (∀ (opt env : String) (outcome : StreamOutcome) (e : Effects),
      jsOr opt env = "" →
      callGeminiAPIForStream opt env outcome e =
        ((Except.error ApiError.missingCredential, []), e)) ∧
    (∀ (options : CallGeminiOptions) (prompt : String)
        (outcome : StreamOutcome) (e : Effects), options.apiKey = "" →
      callGemini25Pro options prompt outcome e =
        ((Except.error ApiError.missingCredential, []), e)) ∧
    (∀ (messages : List Message) (options : CallGeminiOptions)
        (outcome : StreamOutcome) (e : Effects), options.apiKey = "" →
      callGemini25ProWithHistory messages options outcome e =
        ((Except.error ApiError.missingCredential, []), e)) := by
  refine ⟨?_, ?_, ?_, ?_⟩
  · intro opt env outcome e h
    simp [callGeminiAPIForJSON, h]
  · intro opt env outcome e h
    simp [callGeminiAPIForStream, h]
  · intro options prompt outcome e h
    simp [callGemini25Pro, h]
  · intro messages options outcome e h
    simp [callGemini25ProWithHistory, h]

/-- C7 amended witness: with both key sources empty, every transport fails
with the missing-credential error and unchanged effect counters. -/
theorem C7_amended_witness :
    callGeminiAPIForJSON "" "" (replyWith "x") Effects.init =
      (Except.error ApiError.missingCredential, Effects.init) ∧
    callGeminiAPIForStream "" "" (StreamOutcome.ok [] true) Effects.init =
      ((Except.error ApiError.missingCredential, []), Effects.init) ∧
    callGemini25Pro ⟨"", none, none⟩ "hi" (StreamOutcome.ok [] true)
        Effects.init =
      ((Except.error ApiError.missingCredential, []), Effects.init) ∧
    callGemini25ProWithHistory [⟨"user", MessageContent.plain "hi"⟩]
        ⟨"", none, none⟩ (StreamOutcome.ok [] true) Effects.init =
      ((Except.error ApiError.missingCredential, []), Effects.init) :=
  ⟨C7_amended.1 "" "" _ _ rfl, C7_amended.2.1 "" "" _ _ rfl,
   C7_amended.2.2.1 _ "hi" _ _ rfl, C7_amended.2.2.2 _ _ _ _ rfl⟩

/-- C8 counterexample: a call whose thinking budget (0) is ≥ maxTokens (0)
is not rejected — the truthiness guard skips a zero budget — and the
request is issued (one stream call). -/
theorem C8_counterexample :
    callGemini25Pro ⟨"k", some 0, some ⟨"enabled", some 0, none⟩⟩ "hi"
        (StreamOutcome.ok [] true) Effects.init =
      ((Except.ok (), [Ev.complete]), ⟨0, 0, 0, 1⟩) ∧
    ((some 0 : Option Nat).getD 8192 ≤ 0) :=
  ⟨rfl, by decide⟩

/-- C8 amended: only the llm.ts streaming transports check the thinking
budget (the non-streaming gemini-api transport accepts no thinking
configuration), and the check fires only for a nonzero budget ≥ the
effective maxTokens, failing with the invalid-tuning error before any
request. -/
theorem C8_amended :
    (∀ (options : CallGeminiOptions) (prompt : String)
        (outcome : StreamOutcome) (e : Effects) (t : ThinkingConfig) (b : Nat),
      options.thinking = some t → t.budget_tokens = some b → b ≠ 0 →
      options.maxTokens.getD 8192 ≤ b → options.apiKey ≠ "" → prompt ≠ "" →
      callGemini25Pro options prompt outcome e =
        ((Except.error ApiError.invalidTuning, []), e)) ∧
    (∀ (messages : List Message) (options : CallGeminiOptions)
        (outcome : StreamOutcome) (e : Effects) (t : ThinkingConfig) (b : Nat),
      options.thinking = some t → t.budget_tokens = some b → b ≠ 0 →
      options.maxTokens.getD 8192 ≤ b → options.apiKey ≠ "" →
      messages ≠ [] →
      callGemini25ProWithHistory messages options outcome e =
        ((Except.error ApiError.invalidTuning, []), e)) := by
  constructor
  · intro options prompt outcome e t b ht hb hb0 hle hkey hprompt
    have hviol : thinkingBudgetViolation options.thinking
        (options.maxTokens.getD 8192) = true := by
      simp [thinkingBudgetViolation, ht, hb, hb0, hle]
    simp [callGemini25Pro, hkey, hprompt, hviol]
  · intro messages options outcome e t b ht hb hb0 hle hkey hmsg
    have hviol : thinkingBudgetViolation options.thinking
        (options.maxTokens.getD 8192) = true := by
      simp [thinkingBudgetViolation, ht, hb, hb0, hle]
    have hempty : messages.isEmpty = false := by
      cases messages
      · exact absurd rfl hmsg
      · rfl
    simp [callGemini25ProWithHistory, hkey, hempty, hviol]

/-- C8 amended witness: budget 100 ≥ maxTokens 50 fails with the
invalid-tuning error before any request, on both llm.ts transports. -/
theorem C8_amended_witness :
    callGemini25Pro ⟨"k", some 50, some ⟨"enabled", some 100, none⟩⟩ "hi"
        (StreamOutcome.ok [] true) Effects.init =
      ((Except.error ApiError.invalidTuning, []), Effects.init) ∧
    callGemini25ProWithHistory [⟨"user", MessageContent.plain "hi"⟩]
        ⟨"k", some 50, some ⟨"enabled", some 100, none⟩⟩
        (StreamOutcome.ok [] true) Effects.init =
      ((Except.error ApiError.invalidTuning, []), Effects.init) :=
  ⟨C8_amended.1 _ "hi" _ _ _ 100 rfl rfl (by decide) (by decide) (by decide)
    (by decide),
   C8_amended.2 _ _ _ _ _ 100 rfl rfl (by decide) (by decide) (by decide)
    (by simp)⟩

/-- C3 counterexample: a stream whose frame carries a finish reason and is
then closed by the `[DONE]` sentinel — the shape a completion stream
normally has — fires `onComplete` twice in one successful call, not exactly
once. -/
theorem C3_counterexample :
    countComplete (callGeminiAPIForStream "key" ""
        (StreamOutcome.ok finishThenDone true) Effects.init).1.2 = 2 ∧
    (callGeminiAPIForStream "key" ""
        (StreamOutcome.ok finishThenDone true) Effects.init).1.1 =
      Except.ok () :=
  ⟨rfl, rfl⟩

/-- C3 amended: `onError` fires at most once and only as the final
callback (so no `onChunk` follows it), and every call that returns
successfully fired `onComplete` at least once — but a frame carrying a
finish reason fires an extra `onComplete` without ending the loop, so
exactly-once is not guaranteed. -/
theorem C3_amended (opt env : String) (outcome : StreamOutcome)
    (e : Effects) :
    (countErrored (callGeminiAPIForStream opt env outcome e).1.2 = 0 ∨
      ∃ pre, (callGeminiAPIForStream opt env outcome e).1.2 =
          pre ++ [Ev.errored] ∧ countErrored pre = 0) ∧
    ((callGeminiAPIForStream opt env outcome e).1.1 = Except.ok () →
      countErrored (callGeminiAPIForStream opt env outcome e).1.2 = 0 ∧
      1 ≤ countComplete (callGeminiAPIForStream opt env outcome e).1.2) := by
  by_cases hk : jsOr opt env = ""
  · constructor
    · left
      simp [callGeminiAPIForStream, hk]
      rfl
    · intro hok
      simp [callGeminiAPIForStream, hk] at hok
  · rw [callStream_withKey opt env hk outcome e]
    cases outcome with
    | netFail =>
      exact ⟨Or.inr ⟨[], rfl, rfl⟩, fun hok => by simp [streamLoop] at hok⟩
    | badStatus s m =>
      exact ⟨Or.inr ⟨[], rfl, rfl⟩, fun hok => by simp [streamLoop] at hok⟩
    | noBody =>
      exact ⟨Or.inr ⟨[], rfl, rfl⟩, fun hok => by simp [streamLoop] at hok⟩
    | ok chunks closeOk =>
      by_cases hstop : (processChunks "" chunks).2 = true
      · constructor
        · left
          simp only [streamLoop, hstop, if_true]
          exact processChunks_no_err chunks ""
        · intro _
          refine ⟨?_, ?_⟩
          · simp only [streamLoop, hstop, if_true]
            exact processChunks_no_err chunks ""
          · simp only [streamLoop, hstop, if_true]
            exact processChunks_stop chunks "" hstop
      · cases closeOk with
        | true =>
          constructor
          · left
            simp only [streamLoop, hstop, if_false, Bool.false_eq_true,
              if_true, countErrored_append]
            rw [processChunks_no_err chunks ""]
            rfl
          · intro _
            constructor
            · simp only [streamLoop, hstop, if_false, Bool.false_eq_true,
                if_true, countErrored_append]
              rw [processChunks_no_err chunks ""]
              rfl
            · simp only [streamLoop, hstop, if_false, Bool.false_eq_true,
                if_true, countComplete_append]
              have : countComplete [Ev.errored] = 0 := rfl
              simp [countComplete]
        | false =>
          constructor
          · right
            refine ⟨(processChunks "" chunks).1, ?_, processChunks_no_err chunks ""⟩
            simp [streamLoop, hstop]
          · intro hok
            simp [streamLoop, hstop] at hok

/-- C3 amended witness: a stream ending with the sentinel completes with no
`onError` and at least one `onComplete`. -/
theorem C3_amended_witness :
    countErrored (callGeminiAPIForStream "key" ""
        (StreamOutcome.ok ["data: [DONE]\n"] true) Effects.init).1.2 = 0 ∧
    1 ≤ countComplete (callGeminiAPIForStream "key" ""
        (StreamOutcome.ok ["data: [DONE]\n"] true) Effects.init).1.2 :=
  (C3_amended "key" "" (StreamOutcome.ok ["data: [DONE]\n"] true)
    Effects.init).2 rfl

/-- C2: when the classifier reports `unknown`, `smartAnalyzeImage` makes
exactly one model call (the classification POST — no stream call, no second
analysis round trip), returns imageType `unknown` with a null result, and
fills `errorMessage` from the classifier's stated reason. -/
theorem C2_unknown_single_call (url : String) (allergens : List String)
    (opt env : String) (oracle : OrchOracle) (e : Effects) (tr : Json)
    (hkey : jsOr opt env ≠ "") (hurl : jsStarts url "data:" = true)
    (hcl : validateJsonReply oracle.classifyOutcome = Except.ok tr)
    (hunknown : jsGetField tr "imageType" = some (Json.str "unknown")) :
    smartAnalyzeImage url allergens opt env oracle e =
      (Except.ok { imageType := Json.str "unknown",
                   confidence := jsGetField tr "confidence",
                   result := Json.null,
                   errorMessage := some ("无法识别图片类型。" ++
                     jsToStringU (jsGetField tr "reason")) },
       { e with encodes := e.encodes + 1, jsonCalls := e.jsonCalls + 1 }) := by
  simp only [smartAnalyzeImage, convert_dataUri url hurl,
    callJson_withKey opt env hkey, hcl, hunknown]
  rfl

/-- C2 witness: a concrete `unknown` run — one JSON call, zero stream
calls, null result, reason `r1` surfaced. -/
theorem C2_witness :
    smartAnalyzeImage "data:image/png;base64,QUJD" [] "key" ""
        (sampleOracle "unknown") Effects.init =
      (Except.ok { imageType := Json.str "unknown",
                   confidence := some (Json.num "0.95"),
                   result := Json.null,
                   errorMessage := some "无法识别图片类型。r1" },
       ⟨1, 0, 1, 0⟩) := by
  have h := C2_unknown_single_call "data:image/png;base64,QUJD" [] "key" ""
    (sampleOracle "unknown") Effects.init (classifierJson "unknown")
    (by decide) (by decide) rfl rfl
  rw [h]
  rfl

/-- Case analysis on one orchestrator run: it either throws, or returns a
result whose `imageType` is one of the four documented values. -/
theorem smartAnalyzeImage_cases (url : String) (allergens : List String)
    (opt env : String) (oracle : OrchOracle) (e : Effects) :
    (∃ er e2, smartAnalyzeImage url allergens opt env oracle e =
      (Except.error er, e2)) ∨
    (∃ res e2, smartAnalyzeImage url allergens opt env oracle e =
        (Except.ok res, e2) ∧
      res.imageType ∈ [Json.str "ingredients", Json.str "menu",
        Json.str "food", Json.str "unknown"]) := by
  unfold smartAnalyzeImage
  dsimp only
  split
  · exact Or.inl ⟨_, _, rfl⟩
  · split
    · exact Or.inl ⟨_, _, rfl⟩
    · split
      · split
        · exact Or.inl ⟨_, _, rfl⟩
        · split
          · exact Or.inl ⟨_, _, rfl⟩
          · exact Or.inr ⟨_, _, rfl, by simp⟩
      · split
        · exact Or.inl ⟨_, _, rfl⟩
        · split
          · exact Or.inl ⟨_, _, rfl⟩
          · exact Or.inr ⟨_, _, rfl, by simp⟩
      · split
        · exact Or.inl ⟨_, _, rfl⟩
        · exact Or.inr ⟨_, _, rfl, by simp⟩
      · exact Or.inr ⟨_, _, rfl, by simp⟩

/-- C10: every successful `smartAnalyzeImage` run returns an `imageType`
among the four documented values; and whenever the classifier's `imageType`
is anything other than exactly `ingredients`, `menu` or `food`, the run
terminates with imageType `unknown`, a null result, an `errorMessage`
carrying the classifier's reason, and no further model call. -/
theorem C10_imageType_normalized :
    (∀ (url : String) (allergens : List String) (opt env : String)
        (oracle : OrchOracle) (e : Effects) (res : SmartAnalysisResult)
        (e2 : Effects),
      smartAnalyzeImage url allergens opt env oracle e = (Except.ok res, e2) →
      res.imageType ∈ [Json.str "ingredients", Json.str "menu",
        Json.str "food", Json.str "unknown"]) ∧
    (∀ (url : String) (allergens : List String) (opt env : String)
        (oracle : OrchOracle) (e : Effects) (tr : Json),
      jsOr opt env ≠ "" → jsStarts url "data:" = true →
      validateJsonReply oracle.classifyOutcome = Except.ok tr →
      jsGetField tr "imageType" ≠ some (Json.str "ingredients") →
      jsGetField tr "imageType" ≠ some (Json.str "menu") →
      jsGetField tr "imageType" ≠ some (Json.str "food") →
      smartAnalyzeImage url allergens opt env oracle e =
        (Except.ok { imageType := Json.str "unknown",
                     confidence := jsGetField tr "confidence",
                     result := Json.null,
                     errorMessage := some ("无法识别图片类型。" ++
                       jsToStringU (jsGetField tr "reason")) },
         { e with encodes := e.encodes + 1,
                  jsonCalls := e.jsonCalls + 1 })) := by
  constructor
  · intro url allergens opt env oracle e res e2 h
    rcases smartAnalyzeImage_cases url allergens opt env oracle e with
      ⟨er, e3, heq⟩ | ⟨res3, e3, heq, hmem⟩
    · rw [h] at heq
      simp at heq
    · rw [h] at heq
      simp only [Prod.mk.injEq, Except.ok.injEq] at heq
      rw [heq.1]
      exact hmem
  · intro url allergens opt env oracle e tr hkey hurl hcl h1 h2 h3
    simp only [smartAnalyzeImage, convert_dataUri url hurl,
      callJson_withKey opt env hkey, hcl]

/-- C10 witness: a classifier answer `banana` — outside the documented enum
— is normalized to a terminal `unknown` result with a null payload and the
reason surfaced, and the returned imageType is among the four documented
values. -/
theorem C10_witness :
    smartAnalyzeImage "data:image/png;base64,QUJD" [] "key" ""
        (sampleOracle "banana") Effects.init =
      (Except.ok { imageType := Json.str "unknown",
                   confidence := some (Json.num "0.95"),
                   result := Json.null,
                   errorMessage := some "无法识别图片类型。r1" },
       ⟨1, 0, 1, 0⟩) ∧
    ({ imageType := Json.str "unknown",
       confidence := some (Json.num "0.95"),
       result := Json.null,
       errorMessage := some "无法识别图片类型。r1" } :
        SmartAnalysisResult).imageType ∈
      [Json.str "ingredients", Json.str "menu", Json.str "food",
       Json.str "unknown"] := by
  have hne1 : jsGetField (classifierJson "banana") "imageType" ≠
      some (Json.str "ingredients") := by
    intro hq
    rw [show jsGetField (classifierJson "banana") "imageType" =
      some (Json.str "banana") from rfl] at hq
    simp at hq
  have hne2 : jsGetField (classifierJson "banana") "imageType" ≠
      some (Json.str "menu") := by
    intro hq
    rw [show jsGetField (classifierJson "banana") "imageType" =
      some (Json.str "banana") from rfl] at hq
    simp at hq
  have hne3 : jsGetField (classifierJson "banana") "imageType" ≠
      some (Json.str "food") := by
    intro hq
    rw [show jsGetField (classifierJson "banana") "imageType" =
      some (Json.str "banana") from rfl] at hq
    simp at hq
  have heq := C10_imageType_normalized.2 "data:image/png;base64,QUJD" []
    "key" "" (sampleOracle "banana") Effects.init (classifierJson "banana")
    (by decide) (by decide) rfl hne1 hne2 hne3
  constructor
  · rw [heq]
    rfl
  · exact C10_imageType_normalized.1 "data:image/png;base64,QUJD" [] "key"
      "" (sampleOracle "banana") Effects.init _ _ heq

/-- C1 counterexample: with a remote image URL and a classifier answer
`food`, one `smartAnalyzeImage` run executes `convertImageToBase64` twice
and fetches the remote source twice — the `food` branch hands the original
URL to `analyzeFoodPhoto`, which re-encodes it. -/
theorem C1_counterexample :
    (smartAnalyzeImage "https://example.com/a.jpg" ["花生"] "key" ""
        (sampleOracle "food") Effects.init).2.encodes = 2 ∧
    (smartAnalyzeImage "https://example.com/a.jpg" ["花生"] "key" ""
        (sampleOracle "food") Effects.init).2.fetches = 2 ∧
    (smartAnalyzeImage "https://example.com/a.jpg" ["花生"] "key" ""
        (sampleOracle "food") Effects.init).1 =
      Except.ok { imageType := Json.str "food",
                  confidence := some (Json.num "0.95"),
                  result := Json.obj [("overallRisk", Json.str "safe")],
                  errorMessage := none } :=
  ⟨rfl, rfl, rfl⟩

/-- C1 amended: the EncodedImage produced at the start of
`smartAnalyzeImage` is reused by the classification and text-extraction
stages, so every non-`food` branch runs the encoder exactly once; but the
`food` branch re-encodes the original source (twice in total), and for a
remote URL that means a second network fetch. -/
theorem C1_amended :
    (∀ (url : String) (allergens : List String) (opt env : String)
        (oracle : OrchOracle) (e : Effects) (tr : Json),
      jsOr opt env ≠ "" → jsStarts url "data:" = true →
      validateJsonReply oracle.classifyOutcome = Except.ok tr →
      ((jsGetField tr "imageType" = some (Json.str "food") →
        (smartAnalyzeImage url allergens opt env oracle e).2.encodes =
          e.encodes + 2) ∧
       (jsGetField tr "imageType" ≠ some (Json.str "food") →
        (smartAnalyzeImage url allergens opt env oracle e).2.encodes =
          e.encodes + 1))) ∧
    (∀ (url : String) (allergens : List String) (opt env : String)
        (oracle : OrchOracle) (e : Effects) (tr : Json) (b : RemoteBlob),
      jsOr opt env ≠ "" → jsStarts url "data:" = false →
      oracle.remote = some b →
      validateJsonReply oracle.classifyOutcome = Except.ok tr →
      jsGetField tr "imageType" = some (Json.str "food") →
      (smartAnalyzeImage url allergens opt env oracle e).2.encodes =
        e.encodes + 2 ∧
      (smartAnalyzeImage url allergens opt env oracle e).2.fetches =
        e.fetches + 2) := by
  constructor
  · intro url allergens opt env oracle e tr hkey hurl hcl
    constructor
    · intro hfood
      simp only [smartAnalyzeImage, analyzeFoodPhoto,
        convert_dataUri url hurl, callJson_withKey opt env hkey, hcl, hfood]
      rcases hvr : validateJsonReply oracle.foodOutcome with er | j
      · dsimp only
      · dsimp only
    · intro hnf
      simp only [smartAnalyzeImage, analyzeFoodPhoto,
        analyzeIngredientsAllergens, analyzeMenuRecommendations,
        convert_dataUri url hurl, callJson_withKey opt env hkey,
        callStream_withKey opt env hkey, hcl]
      split
      · rcases hsl : streamLoop oracle.extractOutcome with ⟨er | u, sevs⟩
        · dsimp only
        · rcases hvr : validateJsonReply oracle.ingredientsOutcome with er2 | j2
          · dsimp only
          · dsimp only
      · rcases hsl : streamLoop oracle.extractOutcome with ⟨er | u, sevs⟩
        · dsimp only
        · rcases hvr : validateJsonReply oracle.menuOutcome with er2 | j2
          · dsimp only
          · dsimp only
      · rename_i heq
        exact absurd heq hnf
      · dsimp only
  · intro url allergens opt env oracle e tr b hkey hurl hrem hcl hfood
    simp only [smartAnalyzeImage, analyzeFoodPhoto, hrem,
      convert_remote url hurl, callJson_withKey opt env hkey, hcl, hfood]
    rcases hvr : validateJsonReply oracle.foodOutcome with er | j
    · constructor
      · dsimp only
      · dsimp only
    · constructor
      · dsimp only
      · dsimp only

/-- C1 amended witness: on a data URI, a `food` run encodes twice while an
`unknown` run encodes once. -/
theorem C1_amended_witness :
    (smartAnalyzeImage "data:image/png;base64,QUJD" [] "key" ""
        (sampleOracle "food") Effects.init).2.encodes = 0 + 2 ∧
    (smartAnalyzeImage "data:image/png;base64,QUJD" [] "key" ""
        (sampleOracle "unknown") Effects.init).2.encodes = 0 + 1 := by
  constructor
  · exact (C1_amended.1 "data:image/png;base64,QUJD" [] "key" ""
      (sampleOracle "food") Effects.init (classifierJson "food")
      (by decide) (by decide) rfl).1 rfl
  · refine (C1_amended.1 "data:image/png;base64,QUJD" [] "key" ""
      (sampleOracle "unknown") Effects.init (classifierJson "unknown")
      (by decide) (by decide) rfl).2 ?_
    intro hq
    rw [show jsGetField (classifierJson "unknown") "imageType" =
      some (Json.str "unknown") from rfl] at hq
    simp at hq

end SafeBite
